import Mathlib

/-!
Verification of the two-view geometric verification and view-selection core
of the gtsfm repository.

The development shallowly embeds the Python sources:

* `gtsfm/utils/verification.py` — calibration conversions between fundamental
  and essential matrices, epipolar distance metrics (SED and Sampson), and
  relative-pose recovery;
* `utils/verification.py` — a legacy copy of the same module with a
  hard-coded calibration matrix inside `fundamental_to_essential_matrix`;
* `gtsfm/densify/mvs_math.py` — the piecewise-Gaussian view-pair score.

Machine floats are idealised as exact rationals (`ℚ`) where the claims are
algebraic, and as reals (`ℝ`) where square roots, exponentials and inverse
trigonometry appear.  A small IEEE-style extended-value type `NpFloat`
captures the Inf/NaN propagation of numpy division where a claim is about
exactly that behaviour.  Python exceptions are embedded as `Except PyError`.
-/

namespace GTSFM

/-- Error taxonomy of the spec: `SingularMatrixError` models numpy's
`LinAlgError` raised by `np.linalg.inv` on a singular matrix,
`nameError` models Python's `NameError` (an unbound identifier read at run
time), and `degenerateVector` models the `DegenerateVectorError` the spec
assigns to a zero-length direction vector. -/
inductive PyError where
  | singularMatrix
  | nameError
  | degenerateVector
deriving DecidableEq

/-- 3×3 matrices over the rationals: the exact-arithmetic idealisation of the
float matrices handled by `gtsfm/utils/verification.py`. -/
abbrev Mat3 : Type := Matrix (Fin 3) (Fin 3) ℚ

/-- Explicit 3×3 determinant, as the LU factorisation inside `np.linalg.inv`
decides singularity (exactly, in this idealisation). -/
def det3 (M : Mat3) : ℚ :=
  M 0 0 * (M 1 1 * M 2 2 - M 1 2 * M 2 1)
    - M 0 1 * (M 1 0 * M 2 2 - M 1 2 * M 2 0)
    + M 0 2 * (M 1 0 * M 2 1 - M 1 1 * M 2 0)

theorem det3_eq_det (M : Mat3) : det3 M = M.det := by
  rw [Matrix.det_fin_three]; unfold det3; ring

/-- Matrix inverse for nonsingular 3×3 rational matrices, via the adjugate;
this is the exact value `np.linalg.inv` approximates. -/
def inv3 (M : Mat3) : Mat3 := (det3 M)⁻¹ • M.adjugate

theorem inv3_mul (M : Mat3) (h : det3 M ≠ 0) : inv3 M * M = 1 := by
  rw [inv3, Matrix.smul_mul, Matrix.adjugate_mul, smul_smul, det3_eq_det,
    inv_mul_cancel₀ (by rwa [det3_eq_det] at h), one_smul]

theorem mul_inv3 (M : Mat3) (h : det3 M ≠ 0) : M * inv3 M = 1 := by
  rw [inv3, Matrix.mul_smul, Matrix.mul_adjugate, smul_smul, det3_eq_det,
    inv_mul_cancel₀ (by rwa [det3_eq_det] at h), one_smul]

/-- Embeds `fundamental_to_essential_matrix` from
`src/gtsfm/utils/verification.py`: `camera_intrinsics_i2.K().T @ i2Fi1 @
camera_intrinsics_i1.K()`, with the two calibration matrices passed in
directly. -/
def fundamental_to_essential_matrix (i2Fi1 K1 K2 : Mat3) : Mat3 :=
  K2.transpose * i2Fi1 * K1

/-- Embeds `essential_to_fundamental_matrix` from
`src/gtsfm/utils/verification.py`:
`np.linalg.inv(K2.T) @ i2Ei1.matrix() @ np.linalg.inv(K1)`.  Python
evaluates `np.linalg.inv(K2.T)` first and `np.linalg.inv(K1)` second;
either raises `LinAlgError` (here `PyError.singularMatrix`) on a singular
argument. -/
def essential_to_fundamental_matrix (i2Ei1 K1 K2 : Mat3) : Except PyError Mat3 :=
  if det3 K2.transpose = 0 then .error .singularMatrix
  else if det3 K1 = 0 then .error .singularMatrix
  else .ok (inv3 K2.transpose * i2Ei1 * inv3 K1)

theorem det3_transpose (M : Mat3) : det3 M.transpose = det3 M := by
  rw [det3_eq_det, det3_eq_det, Matrix.det_transpose]

/-- C1: for invertible calibration matrices `K1`, `K2` and any `F`,
converting a fundamental matrix to an essential matrix and back with the
same intrinsics returns `F` (exactly, in exact arithmetic — the
floating-tolerance round-trip law of the spec). -/
theorem roundtrip_fundamental_essential (F K1 K2 : Mat3)
    (h1 : det3 K1 ≠ 0) (h2 : det3 K2 ≠ 0) :
    essential_to_fundamental_matrix (fundamental_to_essential_matrix F K1 K2) K1 K2
      = .ok F := by
  have h2t : det3 K2.transpose ≠ 0 := by rwa [det3_transpose]
  rw [essential_to_fundamental_matrix, if_neg h2t, if_neg h1,
    fundamental_to_essential_matrix]
  congr 1
  calc inv3 K2.transpose * (K2.transpose * F * K1) * inv3 K1
      = inv3 K2.transpose * (K2.transpose * (F * K1)) * inv3 K1 := by
        rw [Matrix.mul_assoc K2.transpose F K1]
    _ = inv3 K2.transpose * K2.transpose * (F * K1) * inv3 K1 := by
        rw [Matrix.mul_assoc (inv3 K2.transpose) K2.transpose (F * K1)]
    _ = F * K1 * inv3 K1 := by rw [inv3_mul _ h2t, Matrix.one_mul]
    _ = F * (K1 * inv3 K1) := by rw [Matrix.mul_assoc]
    _ = F := by rw [mul_inv3 _ h1, Matrix.mul_one]

/-- Witness for C1 at the spec's concrete scenario A: identity intrinsics and
identity fundamental matrix. -/
theorem roundtrip_fundamental_essential_witness :
    det3 (1 : Mat3) ≠ 0 ∧
      essential_to_fundamental_matrix
        (fundamental_to_essential_matrix 1 1 1) 1 1 = .ok 1 :=
  ⟨by simp [det3, Matrix.one_apply],
    roundtrip_fundamental_essential 1 1 1
      (by simp [det3, Matrix.one_apply])
      (by simp [det3, Matrix.one_apply])⟩

/-- C10: a singular calibration matrix (for example a focal length of zero)
makes `essential_to_fundamental_matrix` raise `SingularMatrixError`; a result
is never returned for such intrinsics. -/
theorem essential_to_fundamental_singular (E K1 K2 : Mat3)
    (h : det3 K1 = 0 ∨ det3 K2 = 0) :
    essential_to_fundamental_matrix E K1 K2 = .error .singularMatrix := by
  rw [essential_to_fundamental_matrix]
  split_ifs with h2t hk1
  · rfl
  · rfl
  · exfalso
    rcases h with h1 | h2
    · exact hk1 h1
    · exact h2t (by rwa [det3_transpose])

/-- Witness for C10 with `K1` the calibration matrix of a camera whose focal
length is zero. -/
theorem essential_to_fundamental_singular_witness :
    det3 (Matrix.of ![![0, 0, 0], ![0, 0, 0], ![0, 0, 1]] : Mat3) = 0 ∧
      essential_to_fundamental_matrix 1
        (Matrix.of ![![0, 0, 0], ![0, 0, 0], ![0, 0, 1]]) 1
        = .error .singularMatrix :=
  ⟨by simp [det3],
    essential_to_fundamental_singular 1 _ 1 (Or.inl (by simp [det3]))⟩

/-- Embeds `fundamental_to_essential_matrix` from the legacy module
`src/utils/verification.py`.  Its body binds `fx`, `px` and `py`, then builds
`K2 = np.array([[fx, 0, px], [0, fy, py], [0, 0, 1]])`: the name `fy` is
bound nowhere in the function or its module, so every call raises `NameError`
while evaluating that array literal, before any matrix arithmetic and without
ever reading the intrinsics arguments. -/
def legacy_fundamental_to_essential_matrix (_i2Fi1 _K1 _K2 : Mat3) :
    Except PyError Mat3 :=
  .error .nameError

/-- The hard-coded focal length `fx = 1392.1069298937407` of the legacy
module (its comment says `# also fy`). -/
def legacyFx : ℚ := 1392.1069298937407

/-- The hard-coded principal point x-coordinate `px = 980.1759848618066`. -/
def legacyPx : ℚ := 980.1759848618066

/-- The hard-coded principal point y-coordinate `py = 604.3534182680304`. -/
def legacyPy : ℚ := 604.3534182680304

/-- The calibration matrix the legacy `fundamental_to_essential_matrix`
hard-codes for both cameras. -/
def legacyK : Mat3 :=
  Matrix.of ![![legacyFx, 0, legacyPx], ![0, legacyFx, legacyPy], ![0, 0, 1]]

/-- The legacy function under the charitable repair `fy = fx` suggested by
its own `# also fy` comment: it returns `legacyK.T @ i2Fi1 @ legacyK`,
ignoring both intrinsics arguments. -/
def legacy_fundamental_to_essential_matrix_fy_eq_fx (i2Fi1 _K1 _K2 : Mat3) :
    Mat3 :=
  legacyK.transpose * i2Fi1 * legacyK

/-- C9 (code bug): at `F = K1 = K2 = I` the claimed value `K2ᵀ·F·K1` is the
identity, but the legacy `fundamental_to_essential_matrix` of
`src/utils/verification.py` raises `NameError` (the unbound name `fy`), and
even under the repair `fy = fx` it returns the hard-coded `legacyKᵀ·legacyK`,
which differs from the identity — the passed intrinsics are ignored. -/
theorem legacy_fundamental_to_essential_ignores_intrinsics :
    legacy_fundamental_to_essential_matrix 1 1 1 = .error .nameError ∧
      legacy_fundamental_to_essential_matrix_fy_eq_fx 1 1 1
        ≠ (1 : Mat3).transpose * 1 * 1 := by
  refine ⟨rfl, fun h => ?_⟩
  have h22 := congrFun (congrFun h 2) 2
  rw [legacy_fundamental_to_essential_matrix_fy_eq_fx] at h22
  simp only [Matrix.transpose_one, Matrix.mul_one, Matrix.one_mul,
    Matrix.mul_apply, Matrix.transpose_apply, Fin.sum_univ_three,
    Matrix.one_apply_eq] at h22
  simp [legacyK, legacyFx, legacyPx, legacyPy] at h22
  norm_num at h22

/-! ## Epipolar distance metrics -/

/-- Homogeneous lift of a 2D point: `(px, py, 1)`. -/
def hom {α : Type} [CommRing α] (p : α × α) : Fin 3 → α := ![p.1, p.2, 1]

/-- Dot product of two 3-vectors, written out as numpy computes it. -/
def dot3 {α : Type} [CommRing α] (u v : Fin 3 → α) : α :=
  u 0 * v 0 + u 1 * v 1 + u 2 * v 2

/-- Matrix–vector product of a 3×3 matrix with a 3-vector. -/
def mulVec3 {α : Type} [CommRing α] (M : Matrix (Fin 3) (Fin 3) α)
    (v : Fin 3 → α) : Fin 3 → α :=
  fun i => dot3 (fun j => M i j) v

/-- Sum of squares of the first two components of a line `(a, b, c)`: the
rowwise value of `np.sum(np.square(lines[:, :2]), axis=1)`. -/
def xyNormSq {α : Type} [CommRing α] (l : Fin 3 → α) : α :=
  l 0 ^ 2 + l 1 ^ 2

/-- Modelled from the spec: `convert_to_epipolar_lines` of
`gtsfm/utils/features.py` is not among the sources; per the spec's shared
primitive, each 2D point is lifted to homogeneous form and multiplied by the
given 3×3 matrix to obtain an epipolar line. -/
def convert_to_epipolar_lines {α : Type} [CommRing α] (coords : List (α × α))
    (M : Matrix (Fin 3) (Fin 3) α) : List (Fin 3 → α) :=
  coords.map (fun p => mulVec3 M (hom p))

/-- Modelled from the spec: `point_line_dotproduct` of
`gtsfm/utils/features.py` is not among the sources; per the spec it is the
rowwise unnormalized incidence `dot(p_h, l)` of homogeneous points against
lines. -/
def point_line_dotproduct {α : Type} [CommRing α] (coords : List (α × α))
    (lines : List (Fin 3 → α)) : List α :=
  List.zipWith (fun p l => dot3 (hom p) l) coords lines

/-- Rowwise squared xy-norms of a list of lines. -/
def line_sq_norms {α : Type} [CommRing α] (lines : List (Fin 3 → α)) : List α :=
  lines.map xyNormSq

/-- Three-list analogue of `List.zipWith`, truncating at the shortest list,
as numpy's elementwise arithmetic acts on equal-length arrays. -/
def zipWith3 {α β γ δ : Type} (f : α → β → γ → δ) :
    List α → List β → List γ → List δ
  | a :: as, b :: bs, c :: cs => f a b c :: zipWith3 f as bs cs
  | _, _, _ => []

/-- Embeds `compute_epipolar_distances_sed` from
`src/gtsfm/utils/verification.py`: `None`/empty inputs return `None`;
otherwise lines in image 2 come from `F` applied to points of image 1, lines
in image 1 from `Fᵀ` applied to points of image 2, the numerator is the
incidence of points 1 against lines 1, and the row result is
`numerator * sqrt(1/n1 + 1/n2)` over the squared xy-norms. -/
noncomputable def compute_epipolar_distances_sed
    (coordinates_i1 coordinates_i2 : Option (List (ℝ × ℝ)))
    (i2Fi1 : Matrix (Fin 3) (Fin 3) ℝ) : Option (List ℝ) :=
  match coordinates_i1, coordinates_i2 with
  | some c1, some c2 =>
    if c1.isEmpty || c2.isEmpty then none
    else
      let epipolar_lines_i2 := convert_to_epipolar_lines c1 i2Fi1
      let epipolar_lines_i1 := convert_to_epipolar_lines c2 i2Fi1.transpose
      let numerator := point_line_dotproduct c1 epipolar_lines_i1
      let line_sq_norms_i1 := line_sq_norms epipolar_lines_i1
      let line_sq_norms_i2 := line_sq_norms epipolar_lines_i2
      some (zipWith3 (fun nu n1 n2 => nu * Real.sqrt (1 / n1 + 1 / n2))
        numerator line_sq_norms_i1 line_sq_norms_i2)
  | _, _ => none

/-- Embeds `compute_epipolar_distances_sampson` from
`src/gtsfm/utils/verification.py`: same guard, same lines and numerator as
the SED metric, with row result `numerator / sqrt(n1 + n2)`. -/
noncomputable def compute_epipolar_distances_sampson
    (coordinates_i1 coordinates_i2 : Option (List (ℝ × ℝ)))
    (i2Fi1 : Matrix (Fin 3) (Fin 3) ℝ) : Option (List ℝ) :=
  match coordinates_i1, coordinates_i2 with
  | some c1, some c2 =>
    if c1.isEmpty || c2.isEmpty then none
    else
      let epipolar_lines_i2 := convert_to_epipolar_lines c1 i2Fi1
      let epipolar_lines_i1 := convert_to_epipolar_lines c2 i2Fi1.transpose
      let line_sq_norms_i1 := line_sq_norms epipolar_lines_i1
      let line_sq_norms_i2 := line_sq_norms epipolar_lines_i2
      let numerator := point_line_dotproduct c1 epipolar_lines_i1
      some (zipWith3 (fun nu n1 n2 => nu / Real.sqrt (n1 + n2))
        numerator line_sq_norms_i1 line_sq_norms_i2)
  | _, _ => none

/-- The numerator the claims describe: the unnormalized incidence of the
homogeneous point 1 against `line1 = Fᵀ · hom(point2)`. -/
noncomputable def sed_numerator (F : Matrix (Fin 3) (Fin 3) ℝ) (p q : ℝ × ℝ) : ℝ :=
  dot3 (hom p) (mulVec3 F.transpose (hom q))

/-- Row value of the SED metric as the spec states it:
`numerator · sqrt(1/‖line1_xy‖² + 1/‖line2_xy‖²)` with
`line1 = Fᵀ·hom(point2)` and `line2 = F·hom(point1)`. -/
noncomputable def sed_row_spec (F : Matrix (Fin 3) (Fin 3) ℝ) (p q : ℝ × ℝ) : ℝ :=
  sed_numerator F p q *
    Real.sqrt (1 / xyNormSq (mulVec3 F.transpose (hom q))
      + 1 / xyNormSq (mulVec3 F (hom p)))

/-- Row value of the Sampson metric as the spec states it: the same
numerator divided by `sqrt(‖line1_xy‖² + ‖line2_xy‖²)`. -/
noncomputable def sampson_row_spec (F : Matrix (Fin 3) (Fin 3) ℝ) (p q : ℝ × ℝ) : ℝ :=
  sed_numerator F p q /
    Real.sqrt (xyNormSq (mulVec3 F.transpose (hom q))
      + xyNormSq (mulVec3 F (hom p)))

theorem zipWith3_rows {α β : Type} (f : β → β → β → β)
    (dotf : α → (Fin 3 → β) → β) (t u : α → Fin 3 → β) (sq : (Fin 3 → β) → β) :
    ∀ l1 l2 : List α,
      zipWith3 f (List.zipWith (fun p l => dotf p l) l1 (l2.map t))
          ((l2.map t).map sq) ((l1.map u).map sq)
        = List.zipWith (fun p q => f (dotf p (t q)) (sq (t q)) (sq (u p))) l1 l2 := by
  intro l1
  induction l1 with
  | nil => intro l2; cases l2 <;> rfl
  | cons a as ih =>
    intro l2
    cases l2 with
    | nil => rfl
    | cons b bs =>
      simp only [List.map_cons, List.zipWith_cons_cons, zipWith3]
      rw [ih bs]

theorem not_isEmpty_of_ne_nil {α : Type} {l : List α} (h : l ≠ []) :
    l.isEmpty = false := by
  cases l with
  | nil => exact absurd rfl h
  | cons a as => rfl

/-- C2: for non-empty index-aligned coordinate lists, the SED metric returns
exactly the rowwise value `numerator · sqrt(1/‖line1_xy‖² + 1/‖line2_xy‖²)`
described by the spec, with `line2 = F·hom(point1)`, `line1 = Fᵀ·hom(point2)`
and the numerator the incidence of point 1 against line 1. -/
theorem compute_sed_rows (F : Matrix (Fin 3) (Fin 3) ℝ)
    (c1 c2 : List (ℝ × ℝ)) (h1 : c1 ≠ []) (hlen : c1.length = c2.length) :
    compute_epipolar_distances_sed (some c1) (some c2) F
      = some (List.zipWith (sed_row_spec F) c1 c2) := by
  have h2 : c2 ≠ [] := by
    intro h
    rw [h, List.length_nil, List.length_eq_zero] at hlen
    exact h1 hlen
  rw [compute_epipolar_distances_sed, not_isEmpty_of_ne_nil h1,
    not_isEmpty_of_ne_nil h2]
  simp only [Bool.or_self, Bool.false_eq_true, if_false,
    convert_to_epipolar_lines, point_line_dotproduct, line_sq_norms]
  rw [zipWith3_rows (fun nu n1 n2 => nu * Real.sqrt (1 / n1 + 1 / n2))
    (fun p l => dot3 (hom p) l) (fun q => mulVec3 F.transpose (hom q))
    (fun p => mulVec3 F (hom p)) xyNormSq c1 c2]
  rfl

/-- Witness for C2 at the spec's concrete scenario B. -/
theorem compute_sed_rows_witness :
    ([((0 : ℝ), (0 : ℝ))] ≠ [] ∧ [((0 : ℝ), (0 : ℝ))].length = [((0 : ℝ), (0 : ℝ))].length) ∧
      compute_epipolar_distances_sed (some [((0 : ℝ), (0 : ℝ))])
          (some [((0 : ℝ), (0 : ℝ))]) (Matrix.of ![![0, 1, 0], ![1, 0, 0], ![0, 0, 1]])
        = some (List.zipWith (sed_row_spec (Matrix.of ![![0, 1, 0], ![1, 0, 0], ![0, 0, 1]]))
            [((0 : ℝ), (0 : ℝ))] [((0 : ℝ), (0 : ℝ))]) :=
  ⟨⟨by simp, rfl⟩,
    compute_sed_rows _ [((0 : ℝ), (0 : ℝ))] [((0 : ℝ), (0 : ℝ))] (by simp) rfl⟩

/-- C3: for non-empty index-aligned coordinate lists, the Sampson metric
returns rowwise the same numerator as the SED metric divided by
`sqrt(‖line1_xy‖² + ‖line2_xy‖²)`. -/
theorem compute_sampson_rows (F : Matrix (Fin 3) (Fin 3) ℝ)
    (c1 c2 : List (ℝ × ℝ)) (h1 : c1 ≠ []) (hlen : c1.length = c2.length) :
    compute_epipolar_distances_sampson (some c1) (some c2) F
      = some (List.zipWith (sampson_row_spec F) c1 c2) := by
  have h2 : c2 ≠ [] := by
    intro h
    rw [h, List.length_nil, List.length_eq_zero] at hlen
    exact h1 hlen
  rw [compute_epipolar_distances_sampson, not_isEmpty_of_ne_nil h1,
    not_isEmpty_of_ne_nil h2]
  simp only [Bool.or_self, Bool.false_eq_true, if_false,
    convert_to_epipolar_lines, point_line_dotproduct, line_sq_norms]
  rw [zipWith3_rows (fun nu n1 n2 => nu / Real.sqrt (n1 + n2))
    (fun p l => dot3 (hom p) l) (fun q => mulVec3 F.transpose (hom q))
    (fun p => mulVec3 F (hom p)) xyNormSq c1 c2]
  rfl

/-- Witness for C3 at the spec's concrete scenario B. -/
theorem compute_sampson_rows_witness :
    ([((0 : ℝ), (0 : ℝ))] ≠ [] ∧ [((0 : ℝ), (0 : ℝ))].length = [((0 : ℝ), (0 : ℝ))].length) ∧
      compute_epipolar_distances_sampson (some [((0 : ℝ), (0 : ℝ))])
          (some [((0 : ℝ), (0 : ℝ))]) (Matrix.of ![![0, 1, 0], ![1, 0, 0], ![0, 0, 1]])
        = some (List.zipWith (sampson_row_spec (Matrix.of ![![0, 1, 0], ![1, 0, 0], ![0, 0, 1]]))
            [((0 : ℝ), (0 : ℝ))] [((0 : ℝ), (0 : ℝ))]) :=
  ⟨⟨by simp, rfl⟩,
    compute_sampson_rows _ [((0 : ℝ), (0 : ℝ))] [((0 : ℝ), (0 : ℝ))] (by simp) rfl⟩

/-- C4: both epipolar distance metrics return the `None` sentinel — and raise
no error — whenever either coordinate input is absent or empty, for any `F`. -/
theorem epipolar_distances_empty_none (F : Matrix (Fin 3) (Fin 3) ℝ)
    (c1 c2 : Option (List (ℝ × ℝ)))
    (h : c1 = none ∨ c1 = some [] ∨ c2 = none ∨ c2 = some []) :
    compute_epipolar_distances_sed c1 c2 F = none ∧
      compute_epipolar_distances_sampson c1 c2 F = none := by
  rcases h with h | h | h | h <;> subst h
  · exact ⟨rfl, rfl⟩
  · cases c2 <;>
      simp [compute_epipolar_distances_sed, compute_epipolar_distances_sampson]
  · cases c1 <;>
      simp [compute_epipolar_distances_sed, compute_epipolar_distances_sampson]
  · cases c1 <;>
      simp [compute_epipolar_distances_sed, compute_epipolar_distances_sampson]

/-- Witness for C4: an absent first coordinate set with a non-empty second. -/
theorem epipolar_distances_empty_none_witness :
    ((none : Option (List (ℝ × ℝ))) = none ∨ (none : Option (List (ℝ × ℝ))) = some []
        ∨ (some [((0 : ℝ), (0 : ℝ))] : Option (List (ℝ × ℝ))) = none
        ∨ (some [((0 : ℝ), (0 : ℝ))] : Option (List (ℝ × ℝ))) = some []) ∧
      compute_epipolar_distances_sed none (some [((0 : ℝ), (0 : ℝ))]) 1 = none ∧
        compute_epipolar_distances_sampson none (some [((0 : ℝ), (0 : ℝ))]) 1 = none :=
  ⟨Or.inl rfl,
    epipolar_distances_empty_none 1 none (some [((0 : ℝ), (0 : ℝ))]) (Or.inl rfl)⟩

/-! ## IEEE extended-value semantics of the unguarded divisions

`NpFloat` captures the numpy float behaviour the edge-case policy of the spec
is about: division by an exactly zero denominator produces `inf`/`-inf`/`nan`
instead of raising, and those values propagate through `+`, `*` and
`np.sqrt`.  Finite values are idealised as exact rationals; the value of a
square root of a positive finite rational is irrelevant to the claims proved
here, so it is a parameter `s` of the evaluation. -/

inductive NpFloat where
  | fin (x : ℚ)
  | inf
  | ninf
  | nan
deriving DecidableEq

/-- IEEE addition on extended values (signed zeros are not distinguished;
finite arithmetic is idealised as exact). -/
def NpFloat.add : NpFloat → NpFloat → NpFloat
  | fin a, fin b => fin (a + b)
  | nan, _ => nan
  | _, nan => nan
  | inf, inf => inf
  | inf, ninf => nan
  | ninf, inf => nan
  | ninf, ninf => ninf
  | inf, fin _ => inf
  | fin _, inf => inf
  | ninf, fin _ => ninf
  | fin _, ninf => ninf

/-- IEEE multiplication on extended values. -/
def NpFloat.mul : NpFloat → NpFloat → NpFloat
  | fin a, fin b => fin (a * b)
  | nan, _ => nan
  | _, nan => nan
  | inf, inf => inf
  | inf, ninf => ninf
  | ninf, inf => ninf
  | ninf, ninf => inf
  | inf, fin b => if b = 0 then nan else if 0 < b then inf else ninf
  | fin a, inf => if a = 0 then nan else if 0 < a then inf else ninf
  | ninf, fin b => if b = 0 then nan else if 0 < b then ninf else inf
  | fin a, ninf => if a = 0 then nan else if 0 < a then ninf else inf

/-- IEEE division on extended values: this is where numpy turns an exactly
zero denominator into `inf`, `-inf` or `nan` (with a runtime warning, not an
exception). -/
def NpFloat.div : NpFloat → NpFloat → NpFloat
  | fin a, fin b =>
    if b = 0 then (if a = 0 then nan else if 0 < a then inf else ninf)
    else fin (a / b)
  | nan, _ => nan
  | _, nan => nan
  | fin _, inf => fin 0
  | fin _, ninf => fin 0
  | inf, fin b => if 0 ≤ b then inf else ninf
  | ninf, fin b => if 0 ≤ b then ninf else inf
  | inf, inf => nan
  | inf, ninf => nan
  | ninf, inf => nan
  | ninf, ninf => nan

/-- IEEE square root on extended values: `sqrt inf = inf`, `sqrt` of a
negative value is `nan`, `sqrt 0 = 0`; the (rounded) square root of a
positive finite value is supplied by the parameter `s`. -/
def NpFloat.sqrtWith (s : ℚ → NpFloat) : NpFloat → NpFloat
  | fin a => if a < 0 then nan else if a = 0 then fin 0 else s a
  | inf => inf
  | ninf => nan
  | nan => nan

/-- Embeds `compute_epipolar_distances_sed` with the extended-value
semantics of the float divisions (`s` gives the value of finite positive
square roots): the guard, the lines, the numerator and the squared norms are
as in the real-valued embedding, and the final row arithmetic
`numerator * sqrt(1/n1 + 1/n2)` is IEEE. -/
def compute_epipolar_distances_sed_float (s : ℚ → NpFloat)
    (coordinates_i1 coordinates_i2 : Option (List (ℚ × ℚ)))
    (i2Fi1 : Mat3) : Option (List NpFloat) :=
  match coordinates_i1, coordinates_i2 with
  | some c1, some c2 =>
    if c1.isEmpty || c2.isEmpty then none
    else
      let epipolar_lines_i2 := convert_to_epipolar_lines c1 i2Fi1
      let epipolar_lines_i1 := convert_to_epipolar_lines c2 i2Fi1.transpose
      let numerator := point_line_dotproduct c1 epipolar_lines_i1
      let line_sq_norms_i1 := line_sq_norms epipolar_lines_i1
      let line_sq_norms_i2 := line_sq_norms epipolar_lines_i2
      some (zipWith3 (fun nu n1 n2 =>
          NpFloat.mul (.fin nu) (NpFloat.sqrtWith s
            (NpFloat.add (NpFloat.div (.fin 1) (.fin n1))
              (NpFloat.div (.fin 1) (.fin n2)))))
        numerator line_sq_norms_i1 line_sq_norms_i2)
  | _, _ => none

/-- Embeds `compute_epipolar_distances_sampson` with the extended-value
semantics of the float division. -/
def compute_epipolar_distances_sampson_float (s : ℚ → NpFloat)
    (coordinates_i1 coordinates_i2 : Option (List (ℚ × ℚ)))
    (i2Fi1 : Mat3) : Option (List NpFloat) :=
  match coordinates_i1, coordinates_i2 with
  | some c1, some c2 =>
    if c1.isEmpty || c2.isEmpty then none
    else
      let epipolar_lines_i2 := convert_to_epipolar_lines c1 i2Fi1
      let epipolar_lines_i1 := convert_to_epipolar_lines c2 i2Fi1.transpose
      let line_sq_norms_i1 := line_sq_norms epipolar_lines_i1
      let line_sq_norms_i2 := line_sq_norms epipolar_lines_i2
      let numerator := point_line_dotproduct c1 epipolar_lines_i1
      some (zipWith3 (fun nu n1 n2 =>
          NpFloat.div (.fin nu) (NpFloat.sqrtWith s
            (NpFloat.add (.fin n1) (.fin n2))))
        numerator line_sq_norms_i1 line_sq_norms_i2)
  | _, _ => none

/-- A fundamental matrix sending the homogeneous point `(0, 0, 1)` to the
degenerate line `(0, 0, 1)`, whose xy-norm is exactly zero. -/
def degenerateF : Mat3 := Matrix.of ![![0, 0, 0], ![0, 0, 0], ![0, 0, 1]]

/-- C7: the divisions by the epipolar-line xy-norms are unguarded: with
`coords = [(0, 0)]` in both images and `degenerateF`, both computed lines
have exactly zero xy-norm, and both metrics return the non-finite value
`inf` for that row — a value, not a raised error — whatever finite square
roots `s` the float library computes. -/
theorem epipolar_distances_unguarded_division (s : ℚ → NpFloat) :
    compute_epipolar_distances_sed_float s (some [((0 : ℚ), (0 : ℚ))])
        (some [((0 : ℚ), (0 : ℚ))]) degenerateF = some [NpFloat.inf] ∧
      compute_epipolar_distances_sampson_float s (some [((0 : ℚ), (0 : ℚ))])
        (some [((0 : ℚ), (0 : ℚ))]) degenerateF = some [NpFloat.inf] := by
  constructor <;>
    simp [compute_epipolar_distances_sed_float,
      compute_epipolar_distances_sampson_float, degenerateF,
      convert_to_epipolar_lines, point_line_dotproduct, line_sq_norms,
      zipWith3, mulVec3, dot3, hom, xyNormSq, NpFloat.div, NpFloat.add,
      NpFloat.sqrtWith, NpFloat.mul, Matrix.vecHead, Matrix.vecTail,
      Function.comp]

/-! ## Relative pose recovery -/

/-- Modelled from the spec: `normalize_coordinates` from
`gtsfm/utils/features.py` is not among the sources; per the spec, pose
recovery first normalizes pixel coordinates into calibrated rays by applying
the inverse calibration to each homogeneous coordinate. -/
def normalize_coordinates (coords : List (ℚ × ℚ)) (K : Mat3) : List (ℚ × ℚ) :=
  coords.map (fun p =>
    (mulVec3 (inv3 K) (hom p) 0, mulVec3 (inv3 K) (hom p) 1))

/-- Embeds `recover_relative_pose_from_essential_matrix` from
`src/gtsfm/utils/verification.py`.  An absent essential matrix short-circuits
to the absent-pose pair `(None, None)`; otherwise the coordinates are
normalized and the decomposition with cheirality disambiguation is delegated
to `cv.recoverPose`, the trusted external primitive passed in as
`recoverPose` (returning the rotation matrix and translation direction that
are then wrapped as present values). -/
def recover_relative_pose_from_essential_matrix
    (recoverPose : Mat3 → List (ℚ × ℚ) → List (ℚ × ℚ) → Mat3 × (Fin 3 → ℚ))
    (i2Ei1 : Option Mat3)
    (verified_coordinates_i1 verified_coordinates_i2 : List (ℚ × ℚ))
    (K1 K2 : Mat3) :
    Option Mat3 × Option (Fin 3 → ℚ) :=
  match i2Ei1 with
  | none => (none, none)
  | some E =>
    let n1 := normalize_coordinates verified_coordinates_i1 K1
    let n2 := normalize_coordinates verified_coordinates_i2 K2
    let Rt := recoverPose E n1 n2
    (some Rt.1, some Rt.2)

/-- C5: whenever the essential-matrix input is absent,
`recover_relative_pose_from_essential_matrix` returns the absent-pose
sentinel for both outputs, regardless of the delegate, the coordinates and
the intrinsics. -/
theorem recover_relative_pose_absent
    (recoverPose : Mat3 → List (ℚ × ℚ) → List (ℚ × ℚ) → Mat3 × (Fin 3 → ℚ))
    (c1 c2 : List (ℚ × ℚ)) (K1 K2 : Mat3) :
    recover_relative_pose_from_essential_matrix recoverPose none c1 c2 K1 K2
      = (none, none) :=
  rfl

/-! ## Piecewise-Gaussian view-pair score -/

/-- Euclidean norm of a 3-vector. -/
noncomputable def norm3 (v : Fin 3 → ℝ) : ℝ := Real.sqrt (dot3 v v)

/-- Modelled from the spec: `angle_between_vectors` from
`gtsfm/utils/geometry_comparisons.py` is not among the sources; per the spec
it computes the angle between the two vectors in degrees via the
normalized-dot-product/arccosine formula, and fails with
`DegenerateVectorError` when either vector has zero magnitude. -/
noncomputable def angle_between_vectors (a b : Fin 3 → ℝ) : Except PyError ℝ :=
  if a = 0 ∨ b = 0 then .error .degenerateVector
  else .ok (Real.arccos (dot3 a b / (norm3 a * norm3 b)) * 180 / Real.pi)

/-- Embeds `piecewise_gaussian` from `src/gtsfm/densify/mvs_math.py`: the
angle `theta_est` between the rays is computed first (propagating any
`DegenerateVectorError`), the width is `sigma_1` when `theta_est ≤ theta_0`
and `sigma_2` otherwise, and the score is
`exp(-((theta_est - theta_0)^2) / (2 * sigma^2))`. -/
noncomputable def piecewise_gaussian (xPa xPb : Fin 3 → ℝ)
    (theta_0 sigma_1 sigma_2 : ℝ) : Except PyError ℝ := do
  let theta_est ← angle_between_vectors xPa xPb
  let sigma := if theta_est ≤ theta_0 then sigma_1 else sigma_2
  return Real.exp (-((theta_est - theta_0) ^ 2) / (2 * sigma ^ 2))

/-- C6: when the angle between the rays is `θ` (degrees) and the Gaussian
widths are nonzero (the spec's valid parameters), `piecewise_gaussian`
selects `sigma_1` for `θ ≤ theta_0` (tie included) and `sigma_2` otherwise,
returns `exp(-(θ - theta_0)² / (2·σ²))`, and that score lies in `(0, 1]`,
attaining `1` exactly when `θ = theta_0`. -/
theorem piecewise_gaussian_score (xPa xPb : Fin 3 → ℝ)
    (theta_0 sigma_1 sigma_2 θ : ℝ)
    (hθ : angle_between_vectors xPa xPb = .ok θ)
    (h1 : sigma_1 ≠ 0) (h2 : sigma_2 ≠ 0) :
    let sigma := if θ ≤ theta_0 then sigma_1 else sigma_2
    let score := Real.exp (-((θ - theta_0) ^ 2) / (2 * sigma ^ 2))
    piecewise_gaussian xPa xPb theta_0 sigma_1 sigma_2 = .ok score ∧
      0 < score ∧ score ≤ 1 ∧ (θ = theta_0 → score = 1) := by
  intro sigma score
  refine ⟨?_, Real.exp_pos _, ?_, ?_⟩
  · rw [piecewise_gaussian, hθ]
    rfl
  · have hx : -((θ - theta_0) ^ 2) / (2 * sigma ^ 2) ≤ 0 :=
      div_nonpos_iff.mpr
        (Or.inr ⟨neg_nonpos.mpr (sq_nonneg (θ - theta_0)), by positivity⟩)
    calc score ≤ Real.exp 0 := Real.exp_le_exp.mpr hx
      _ = 1 := Real.exp_zero
  · intro h
    show Real.exp (-((θ - theta_0) ^ 2) / (2 * sigma ^ 2)) = 1
    rw [h, sub_self, zero_pow (by norm_num), neg_zero, zero_div, Real.exp_zero]

/-- Witness for C6 at the spec's concrete scenario C: orthogonal rays, hence
`θ = 90` degrees, with the default parameters. -/
theorem piecewise_gaussian_score_witness :
    angle_between_vectors ![1, 0, 0] ![0, 1, 0] = .ok 90 ∧
      ((1 : ℝ) ≠ 0 ∧ (10 : ℝ) ≠ 0) ∧
      (let sigma := if (90 : ℝ) ≤ 5 then (1 : ℝ) else 10
       let score := Real.exp (-(((90 : ℝ) - 5) ^ 2) / (2 * sigma ^ 2))
       piecewise_gaussian ![1, 0, 0] ![0, 1, 0] 5 1 10 = .ok score ∧
         0 < score ∧ score ≤ 1 ∧ ((90 : ℝ) = 5 → score = 1)) := by
  have hang : angle_between_vectors ![1, 0, 0] ![0, 1, 0] = .ok 90 := by
    have hne : ¬((![1, 0, 0] : Fin 3 → ℝ) = 0 ∨ (![0, 1, 0] : Fin 3 → ℝ) = 0) := by
      rintro (h | h)
      · simpa using congrFun h 0
      · simpa using congrFun h 1
    rw [angle_between_vectors, if_neg hne]
    have hd : dot3 (![1, 0, 0] : Fin 3 → ℝ) ![0, 1, 0] = 0 := by
      simp [dot3]
    have hna : norm3 (![1, 0, 0] : Fin 3 → ℝ) = 1 := by
      simp [norm3, dot3]
    have hnb : norm3 (![0, 1, 0] : Fin 3 → ℝ) = 1 := by
      simp [norm3, dot3]
    rw [hd, hna, hnb]
    norm_num [Real.arccos_zero]
    field_simp
    ring
  exact ⟨hang, ⟨by norm_num, by norm_num⟩,
    piecewise_gaussian_score ![1, 0, 0] ![0, 1, 0] 5 1 10 90 hang
      (by norm_num) (by norm_num)⟩

/-- C8: whenever either ray has zero magnitude, `piecewise_gaussian` fails
with `DegenerateVectorError` and never returns a numeric score. -/
theorem piecewise_gaussian_degenerate (xPa xPb : Fin 3 → ℝ)
    (theta_0 sigma_1 sigma_2 : ℝ) (h : xPa = 0 ∨ xPb = 0) :
    piecewise_gaussian xPa xPb theta_0 sigma_1 sigma_2
      = .error .degenerateVector := by
  rw [piecewise_gaussian, angle_between_vectors, if_pos h]
  rfl

/-- Witness for C8 at the spec's degenerate-vector scenario
`ray_a = (0, 0, 0)`. -/
theorem piecewise_gaussian_degenerate_witness :
    ((![0, 0, 0] : Fin 3 → ℝ) = 0 ∨ (![1, 0, 0] : Fin 3 → ℝ) = 0) ∧
      piecewise_gaussian ![0, 0, 0] ![1, 0, 0] 5 1 10
        = .error .degenerateVector :=
  ⟨Or.inl (by funext i; fin_cases i <;> rfl),
    piecewise_gaussian_degenerate ![0, 0, 0] ![1, 0, 0] 5 1 10
      (Or.inl (by funext i; fin_cases i <;> rfl))⟩

end GTSFM
